import Mathlib

/-!
Shallow embedding of the Preset & Zone Orchestration subsystem of the
reolink-api client (source: `src/presets.ts`, the `PresetsModule` class),
together with theorems checking the specification's claims against it.

JavaScript runtime values returned by the device transport are modelled by
the inductive type `Json`; JS numbers are modelled as integers (the whole
subsystem works with integral ids, channels, grid dimensions and 0/1
flags), with `NaN` represented as `none` where a numeric coercion can fail.
-/

namespace Reolink

/-- A JSON-like runtime value, as delivered by the transport layer. -/
inductive Json where
  | null
  | bool (b : Bool)
  | num (n : Int)
  | str (s : String)
  | arr (elems : List Json)
  | obj (fields : List (String × Json))

/-- Property access `v[k]` / `v?.k`: `none` models JS `undefined`.
Only objects carry string-keyed properties in this model. -/
def Json.get? : Json → String → Option Json
  | .obj fields, k => fields.lookup k
  | _, _ => none

/-- JS nullish coalescing `a ?? b` on possibly-absent values:
both `undefined` (`none`) and `null` fall through to `b`. -/
def jsCoal (a b : Option Json) : Option Json :=
  match a with
  | some .null => b
  | none => b
  | some v => some v

/-- JS truthiness of a value. -/
def Json.truthy : Json → Bool
  | .null => false
  | .bool b => b
  | .num n => n != 0
  | .str s => s != ""
  | .arr _ => true
  | .obj _ => true

/-- Truthiness of a possibly-absent value (`undefined` is falsy). -/
def optTruthy (o : Option Json) : Bool :=
  match o with
  | some v => v.truthy
  | none => false

/-- JS loose test `x != null` (false exactly for `null` and `undefined`). -/
def notNullish (o : Option Json) : Bool :=
  match o with
  | some .null => false
  | none => false
  | some _ => true

/-- Is the value an array (`Array.isArray`)? -/
def Json.isArr : Json → Bool
  | .arr _ => true
  | _ => false

/-- The `Number(v)` restricted to the integer fragment used by this subsystem:
`none` stands for `NaN` (non-numeric strings; array/object coercion is
outside the values this subsystem produces and is modelled as `NaN`). -/
def jsToNumber : Json → Option Int
  | .null => some 0
  | .bool b => some (if b then 1 else 0)
  | .num n => some n
  | .str s => if s.trim = "" then some 0 else s.trim.toInt?
  | .arr _ => none
  | .obj _ => none

/-- Rendering of a (possibly `NaN`) JS number into a template string. -/
def numToString (o : Option Int) : String :=
  match o with
  | some n => toString n
  | none => "NaN"

/-- The `String(v)` on the primitive values this subsystem handles. -/
def jsToString : Json → String
  | .null => "null"
  | .bool b => if b then "true" else "false"
  | .num n => toString n
  | .str s => s
  | .arr _ => ""
  | .obj _ => "[object Object]"

/-- Canonical PTZ preset record (`PtzPreset` in the source). `id` and
`channel` are JS numbers, hence `Option Int` with `none` for `NaN`. -/
structure PtzPreset where
  id : Option Int
  name : String
  enable : Bool
  channel : Option Int
deriving Repr, DecidableEq

/-! ## Response Normalizer: `listPresets` decoding chain -/

/-- One step of the generic fallback scan over the top-level keys of the
response object (the final `else` branch of the decoder chain): accept the
first array-valued property that is non-empty and whose first element is an
object carrying `id` or `ID`; also accept a nested object property exposing
`.preset` or `.Preset` as an array. -/
def scanKey (v : Json) : Option Json :=
  match v with
  | .arr elems =>
    match elems.head? with
    | some (.obj fs) =>
      if (fs.lookup "id").isSome || (fs.lookup "ID").isSome then
        some (.arr elems)
      else
        none
    | _ => none
  | .obj fs =>
    match fs.lookup "preset" with
    | some (.arr xs) => some (.arr xs)
    | _ =>
      match fs.lookup "Preset" with
      | some (.arr xs) => some (.arr xs)
      | _ => none
  | _ => none

/-- The generic fallback scan: first key whose value matches `scanKey`. -/
def scanFields : List (String × Json) → Option Json
  | [] => none
  | (_, v) :: rest =>
    match scanKey v with
    | some r => some r
    | none => scanFields rest

/-- The ordered decoder chain of `listPresets`: the value assigned to
`rawPresets`, or `none` when no decoder matched. -/
def findRawPresets (response : Json) : Option Json :=
  if optTruthy ((response.get? "PtzPreset").bind (·.get? "preset")) then
    (response.get? "PtzPreset").bind (·.get? "preset")
  else if (match response.get? "PtzPreset" with
           | some (.arr _) => true
           | _ => false) then
    response.get? "PtzPreset"
  else if optTruthy (response.get? "preset") then
    match response.get? "preset" with
    | some (.arr xs) => some (.arr xs)
    | some v => some (.arr [v])
    | none => none
  else if optTruthy (response.get? "Presets") then
    match response.get? "Presets" with
    | some (.arr xs) => some (.arr xs)
    | some v => some (.arr [v])
    | none => none
  else if response.isArr then
    some response
  else
    match response with
    | .obj fields => scanFields fields
    | _ => none

/-- Filter applied to each raw element before coercion:
`preset != null && (preset.id != null || preset.ID != null)`. -/
def rawPresetKeep (p : Json) : Bool :=
  notNullish (some p) && (notNullish (p.get? "id") || notNullish (p.get? "ID"))

/-- JS strict equality `v === n` against a number literal. -/
def strictEqNum (o : Option Json) (n : Int) : Bool :=
  match o with
  | some (.num m) => m == n
  | _ => false

/-- JS strict equality `v === true`. -/
def strictEqTrue (o : Option Json) : Bool :=
  match o with
  | some (.bool b) => b
  | _ => false

/-- Coercion of one raw element into the canonical record, relative to the
requesting channel. -/
def coercePreset (channel : Int) (p : Json) : PtzPreset :=
  let id := (jsCoal (p.get? "id") (jsCoal (p.get? "ID") (some (.num 0)))).bind
      jsToNumber
  let name :=
    match jsCoal (p.get? "name") (p.get? "Name") with
    | some v => jsToString v
    | none => "Preset " ++ numToString id
  let enable :=
    if notNullish (p.get? "enable") then
      strictEqNum (p.get? "enable") 1 || strictEqTrue (p.get? "enable")
    else
      true
  let presetChannel :=
    (jsCoal (p.get? "channel")
        (jsCoal (p.get? "Channel") (some (.num channel)))).bind jsToNumber
  { id := id, name := name, enable := enable, channel := presetChannel }

/-- The raw list normalisation step
(`if (!rawPresets || !Array.isArray(rawPresets)) rawPresets = []`). -/
def rawPresetList (response : Json) : List Json :=
  match findRawPresets response with
  | some (.arr xs) => xs
  | _ => []

/-- Pure core of `PresetsModule.listPresets`: decode the transport response
for channel `channel` into canonical records.  A falsy response short
circuits to the empty list, mirroring the `if (!response) return []` guard. -/
def listPresetsPure (response : Json) (channel : Int) : List PtzPreset :=
  if ¬ response.truthy then
    []
  else
    ((rawPresetList response).filter rawPresetKeep).map (coercePreset channel)

/-! ## Preset tuples and the documented envelope shapes -/

/-- An abstract preset tuple `(id, name, enable, channel)` carried by a
device response. -/
structure Tup where
  id : Int
  name : String
  enable : Bool
  channel : Int

/-- Wire encoding of one preset tuple as a raw element. -/
def encTup (t : Tup) : Json :=
  .obj [("id", .num t.id), ("name", .str t.name),
        ("enable", .bool t.enable), ("channel", .num t.channel)]

/-- The canonical record a well-formed tuple decodes to. -/
def canonicalOf (t : Tup) : PtzPreset :=
  { id := some t.id, name := t.name, enable := t.enable,
    channel := some t.channel }

/-- Envelope shape 1: `{PtzPreset: {preset: [...]}}`. -/
def shape1 (ts : List Tup) : Json :=
  .obj [("PtzPreset", .obj [("preset", .arr (ts.map encTup))])]

/-- Envelope shape 2: `{PtzPreset: [...]}`. -/
def shape2 (ts : List Tup) : Json :=
  .obj [("PtzPreset", .arr (ts.map encTup))]

/-- Envelope shape 3: `{preset: [...]}`. -/
def shape3 (ts : List Tup) : Json :=
  .obj [("preset", .arr (ts.map encTup))]

/-- Envelope shape 3, lone-object variant: `{preset: {...}}`. -/
def shape3one (t : Tup) : Json :=
  .obj [("preset", encTup t)]

/-- Envelope shape 4: `{Presets: [...]}`. -/
def shape4 (ts : List Tup) : Json :=
  .obj [("Presets", .arr (ts.map encTup))]

/-- Envelope shape 4, lone-object variant: `{Presets: {...}}`. -/
def shape4one (t : Tup) : Json :=
  .obj [("Presets", encTup t)]

/-- Envelope shape 5: the response itself an array. -/
def shape5 (ts : List Tup) : Json :=
  .arr (ts.map encTup)

/-- Envelope shape 6: the generic key scan (an otherwise-unknown key whose
value is the preset array). -/
def shape6 (ts : List Tup) : Json :=
  .obj [("items", .arr (ts.map encTup))]

theorem rawPresetKeep_encTup (t : Tup) : rawPresetKeep (encTup t) = true := rfl

theorem coercePreset_encTup (ch : Int) (t : Tup) :
    coercePreset ch (encTup t) = canonicalOf t := rfl

/-- Decoding a list of encoded tuples coerces them pointwise. -/
theorem decode_mapped (ch : Int) (ts : List Tup) :
    ((ts.map encTup).filter rawPresetKeep).map (coercePreset ch) =
      ts.map canonicalOf := by
  induction ts with
  | nil => rfl
  | cons t ts ih =>
    simp only [List.map_cons, List.filter_cons, rawPresetKeep_encTup,
      if_true, coercePreset_encTup, ih]

theorem rawPresetList_shape1 (ts : List Tup) :
    rawPresetList (shape1 ts) = ts.map encTup := rfl

theorem rawPresetList_shape2 (ts : List Tup) :
    rawPresetList (shape2 ts) = ts.map encTup := rfl

theorem rawPresetList_shape3 (ts : List Tup) :
    rawPresetList (shape3 ts) = ts.map encTup := rfl

theorem rawPresetList_shape4 (ts : List Tup) :
    rawPresetList (shape4 ts) = ts.map encTup := rfl

theorem rawPresetList_shape5 (ts : List Tup) :
    rawPresetList (shape5 ts) = ts.map encTup := rfl

theorem rawPresetList_shape6 (ts : List Tup) :
    rawPresetList (shape6 ts) = ts.map encTup := by
  cases ts with
  | nil => rfl
  | cons t ts => rfl

-- Scenario sanity checks (spec §8 scenarios 1 and 2).
example :
    listPresetsPure
      (.obj [("PtzPreset", .obj [("preset",
        .arr [.obj [("id", .num 1), ("name", .str "Home"),
                    ("enable", .num 1), ("channel", .num 0)]])])]) 0 =
      [{ id := some 1, name := "Home", enable := true, channel := some 0 }] := by
  rfl

example : listPresetsPure (.obj []) 0 = [] := by rfl

theorem listPresetsPure_of_truthy (ch : Int) (v : Json) (h : v.truthy = true) :
    listPresetsPure v ch =
      ((rawPresetList v).filter rawPresetKeep).map (coercePreset ch) := by
  simp [listPresetsPure, h]

/-- C2. All six documented envelope shapes carrying the same tuples decode
to the same canonical records (the pointwise coercion of the tuples); the
lone-object variants of shapes 3 and 4 wrap into a one-element list; and the
per-element coercion applies the documented defaults: `id` from `id ?? ID`,
`name` defaulting to `"Preset {id}"`, `enable` defaulting to `true` when the
raw field is absent (JS-nullish) and otherwise true exactly for `1` and
`true`, `channel` defaulting to the requesting channel.  The decoder order
itself is fixed in `findRawPresets`, first match winning. -/
theorem listPresets_envelope_invariant :
    ∀ (ch : Int) (ts : List Tup),
      (listPresetsPure (shape1 ts) ch = ts.map canonicalOf) ∧
      (listPresetsPure (shape2 ts) ch = ts.map canonicalOf) ∧
      (listPresetsPure (shape3 ts) ch = ts.map canonicalOf) ∧
      (listPresetsPure (shape4 ts) ch = ts.map canonicalOf) ∧
      (listPresetsPure (shape5 ts) ch = ts.map canonicalOf) ∧
      (listPresetsPure (shape6 ts) ch = ts.map canonicalOf) ∧
      (∀ t, listPresetsPure (shape3one t) ch = [canonicalOf t]) ∧
      (∀ t, listPresetsPure (shape4one t) ch = [canonicalOf t]) ∧
      (∀ i : Int,
        coercePreset ch (.obj [("ID", .num i)]) =
          { id := some i, name := "Preset " ++ toString i, enable := true,
            channel := some ch }) ∧
      (∀ v : Json,
        (coercePreset ch (.obj [("id", .num 1), ("enable", v)])).enable = true ↔
          (v = .num 1 ∨ v = .bool true ∨ v = .null)) := by
  intro ch ts
  refine ⟨?_, ?_, ?_, ?_, ?_, ?_, ?_, ?_, ?_, ?_⟩
  · rw [listPresetsPure_of_truthy ch (shape1 ts) rfl, rawPresetList_shape1,
      decode_mapped]
  · rw [listPresetsPure_of_truthy ch (shape2 ts) rfl, rawPresetList_shape2,
      decode_mapped]
  · rw [listPresetsPure_of_truthy ch (shape3 ts) rfl, rawPresetList_shape3,
      decode_mapped]
  · rw [listPresetsPure_of_truthy ch (shape4 ts) rfl, rawPresetList_shape4,
      decode_mapped]
  · rw [listPresetsPure_of_truthy ch (shape5 ts) rfl, rawPresetList_shape5,
      decode_mapped]
  · rw [listPresetsPure_of_truthy ch (shape6 ts) rfl, rawPresetList_shape6,
      decode_mapped]
  · intro t
    rw [listPresetsPure_of_truthy ch (shape3one t) rfl]
    show ((([t].map encTup)).filter rawPresetKeep).map (coercePreset ch) = _
    rw [decode_mapped]
    rfl
  · intro t
    rw [listPresetsPure_of_truthy ch (shape4one t) rfl]
    show ((([t].map encTup)).filter rawPresetKeep).map (coercePreset ch) = _
    rw [decode_mapped]
    rfl
  · intro i
    rfl
  · intro v
    cases v with
    | null =>
      rw [show (coercePreset ch
        (.obj [("id", .num 1), ("enable", Json.null)])).enable = true from rfl]
      simp
    | bool b =>
      rw [show (coercePreset ch
        (.obj [("id", .num 1), ("enable", Json.bool b)])).enable = b from rfl]
      cases b <;> simp
    | num n =>
      rw [show (coercePreset ch
        (.obj [("id", .num 1), ("enable", Json.num n)])).enable =
          ((n == 1) || false) from rfl]
      simp
    | str s =>
      rw [show (coercePreset ch
        (.obj [("id", .num 1), ("enable", Json.str s)])).enable = false from
        rfl]
      simp
    | arr xs =>
      rw [show (coercePreset ch
        (.obj [("id", .num 1), ("enable", Json.arr xs)])).enable = false from
        rfl]
      simp
    | obj fs =>
      rw [show (coercePreset ch
        (.obj [("id", .num 1), ("enable", Json.obj fs)])).enable = false from
        rfl]
      simp

/-- C6. `listPresets` never throws on malformed payloads: whenever no
decoder shape matches, the result is the empty list (the decode itself is a
total function on arbitrary `Json`, so no exception is possible). -/
theorem listPresets_no_match_empty (v : Json) (ch : Int)
    (h : findRawPresets v = none) : listPresetsPure v ch = [] := by
  by_cases ht : v.truthy = true
  · rw [listPresetsPure_of_truthy ch v ht]
    simp [rawPresetList, h]
  · simp [listPresetsPure, ht]

/-- Witness for C6: the empty-object payload matches no decoder and decodes
to the empty list (spec scenario 2). -/
theorem listPresets_no_match_empty_witness :
    listPresetsPure (.obj [("foo", .num 1)]) 0 = [] :=
  listPresets_no_match_empty (.obj [("foo", .num 1)]) 0 rfl

/-- The C7 counterexample payload: a well-formed envelope whose preset id
is 77, outside 1..64. -/
def inputId77 : Json :=
  .obj [("PtzPreset", .obj [("preset",
    .arr [.obj [("id", .num 77), ("name", .str "Far"),
                ("enable", .num 1), ("channel", .num 0)]])])]

/-- The canonical record `inputId77` decodes to. -/
def recId77 : PtzPreset :=
  { id := some 77, name := "Far", enable := true, channel := some 0 }

theorem listPresetsPure_inputId77 : listPresetsPure inputId77 0 = [recId77] :=
  rfl

/-- C7 counterexample: `listPresets` returns a record whose id is 77, not
in the range 1..64 — the range invariant claimed by the spec is not
enforced by the decode path. -/
theorem listPresets_id_range_counterexample :
    ∃ p ∈ listPresetsPure inputId77 0,
      ¬ ∃ n : Int, p.id = some n ∧ 1 ≤ n ∧ n ≤ 64 := by
  refine ⟨recId77, ?_, ?_⟩
  · rw [listPresetsPure_inputId77]
    exact List.mem_singleton.mpr rfl
  · rintro ⟨n, hn, h1, h64⟩
    have : n = 77 := by
      have : some (77 : Int) = some n := hn
      simpa using this.symm
    omega

/-- C7 amended: every record returned by `listPresets` carries as id the JS
numeric coercion of the raw element's `id ?? ID` field (defaulting to 0);
no 1..64 range restriction is enforced. -/
theorem listPresets_id_from_raw (v : Json) (ch : Int) (p : PtzPreset)
    (hp : p ∈ listPresetsPure v ch) :
    ∃ raw ∈ rawPresetList v, rawPresetKeep raw = true ∧
      p.id = (jsCoal (raw.get? "id")
        (jsCoal (raw.get? "ID") (some (.num 0)))).bind jsToNumber := by
  by_cases ht : v.truthy = true
  · rw [listPresetsPure_of_truthy ch v ht] at hp
    obtain ⟨raw, hmem, hco⟩ := List.mem_map.mp hp
    obtain ⟨hmem', hkeep⟩ := List.mem_filter.mp hmem
    exact ⟨raw, hmem', hkeep, by rw [← hco]; rfl⟩
  · simp [listPresetsPure, ht] at hp

/-- Witness for the amended C7 theorem at the concrete id-77 payload. -/
theorem listPresets_id_from_raw_witness :
    recId77 ∈ listPresetsPure inputId77 0 ∧
      ∃ raw ∈ rawPresetList inputId77, rawPresetKeep raw = true ∧
        recId77.id = (jsCoal (raw.get? "id")
          (jsCoal (raw.get? "ID") (some (.num 0)))).bind jsToNumber := by
  have hmem : recId77 ∈ listPresetsPure inputId77 0 := by
    rw [listPresetsPure_inputId77]
    exact List.mem_singleton.mpr rfl
  exact ⟨hmem, listPresets_id_from_raw inputId77 0 recId77 hmem⟩

/-! ## Zone Codec -/

/-- Canonical 2-D grid bitmask (`GridArea` in the source); JS numbers are
modelled as integers. -/
structure GridArea where
  width : Int
  height : Int
  bits : String
deriving Repr, DecidableEq

/-- The `normalizeMdScope`: decode a wire scope object, accepting the field
aliases `cols`/`width`, `rows`/`height` and `table`/`area`/`bits`.  A
missing or zero dimension (JS-falsy; the integral fragment of the wire
values), a non-string bit field, or a size mismatch is a validation
error. -/
def normalizeMdScope (scope : Json) : Except String GridArea :=
  match jsCoal (scope.get? "cols") (scope.get? "width"),
      jsCoal (scope.get? "rows") (scope.get? "height"),
      jsCoal (scope.get? "table")
        (jsCoal (scope.get? "area") (scope.get? "bits")) with
  | some (.num w), some (.num h), some (.str s) =>
    if w = 0 ∨ h = 0 then
      .error "Invalid motion detection scope received from device"
    else if (s.length : Int) ≠ w * h then
      .error "Motion detection scope size mismatch"
    else
      .ok { width := w, height := h, bits := s }
  | _, _, _ => .error "Invalid motion detection scope received from device"

/-- The wire scope object emitted by `buildScope`: both alias pairs
(`width`/`cols`, `height`/`rows`) plus `table`. -/
def scopeWire (area : GridArea) : Json :=
  .obj [("width", .num area.width), ("height", .num area.height),
        ("cols", .num area.width), ("rows", .num area.height),
        ("table", .str area.bits)]

/-- The `buildScope`: encode a grid area into the wire scope object, after
validating the size invariant. -/
def buildScope (area : GridArea) : Except String Json :=
  if (area.bits.length : Int) ≠ area.width * area.height then
    .error "Grid area bitstring size mismatch"
  else
    .ok (scopeWire area)

/-- C3. Grid round-trip: for positive dimensions and a bit string of the
exact size, encoding with `buildScope` and decoding the resulting wire
object with `normalizeMdScope` restores the original area. -/
theorem grid_roundtrip (a : GridArea) (hw : 0 < a.width) (hh : 0 < a.height)
    (hlen : (a.bits.length : Int) = a.width * a.height) :
    buildScope a = .ok (.obj [("width", .num a.width), ("height", .num a.height),
        ("cols", .num a.width), ("rows", .num a.height),
        ("table", .str a.bits)]) ∧
      (buildScope a).bind normalizeMdScope = .ok a := by
  have henc : buildScope a = .ok (.obj [("width", .num a.width),
      ("height", .num a.height), ("cols", .num a.width),
      ("rows", .num a.height), ("table", .str a.bits)]) := by
    simp [buildScope, scopeWire, hlen]
  refine ⟨henc, ?_⟩
  rw [henc]
  have hz : ¬ (a.width = 0 ∨ a.height = 0) := by omega
  have hne : ¬ ((a.bits.length : Int) ≠ a.width * a.height) := by omega
  show (if a.width = 0 ∨ a.height = 0 then
      (Except.error "Invalid motion detection scope received from device" :
        Except String GridArea)
    else if (a.bits.length : Int) ≠ a.width * a.height then
      Except.error "Motion detection scope size mismatch"
    else
      Except.ok { width := a.width, height := a.height, bits := a.bits }) =
    Except.ok a
  rw [if_neg hz, if_neg hne]

/-- Witness for C3 at spec scenario 3: a 4×2 grid with bits "01101001". -/
theorem grid_roundtrip_witness :
    (0 : Int) < 4 ∧ (0 : Int) < 2 ∧
      ((("01101001" : String).length : Int) = 4 * 2) ∧
      (buildScope { width := 4, height := 2, bits := "01101001" }).bind
          normalizeMdScope =
        .ok { width := 4, height := 2, bits := "01101001" } := by
  refine ⟨by norm_num, by norm_num, by decide, ?_⟩
  exact (grid_roundtrip { width := 4, height := 2, bits := "01101001" }
    (by norm_num) (by norm_num) (by decide)).2

/-! ## Transport model

The client transport (`ReolinkClient.request`) is an external collaborator:
we model it as an environment mapping each command name to either a raw
`Json` value or a thrown error.  A `ReolinkHttpError` (the transport's
typed device error) is distinguished from any other thrown error, as
`setMdZone` branches on `instanceof ReolinkHttpError`. -/

/-- An error thrown during an operation. -/
inductive RError where
  | http (code : Int) (msg : String)
  | js (msg : String)
deriving Repr, DecidableEq

/-- One transport request: command, payload, optional action flag. -/
structure Req where
  cmd : String
  payload : Json
  action : Option Nat

/-- The transport environment: the outcome of issuing each command. -/
def Env := String → Except RError Json

/-- The canonical AI type list (`SUPPORTED_AI_TYPES` in the source), kept
as runtime strings, since the wire layer and the `includes` check operate
on strings. -/
def SUPPORTED_AI_TYPES : List String := ["people", "vehicle", "dog_cat", "face"]

/-! ## `setMasks`, `setAiZone`, `gotoPreset`, `setGuard` -/

/-- The `setMasks`: one `SetMask` write carrying the mask list and the enable
flag. -/
def setMasks (env : Env) (channel : Int) (masks : List Json) (enable : Int) :
    List Req × Except RError Unit :=
  ([⟨"SetMask", .obj [("Mask", .obj [("channel", .num channel),
      ("enable", .num enable), ("area", .arr masks)])], none⟩],
   (env "SetMask").map fun _ => ())

/-- The `SetAlarmArea` full-overwrite write issued by `setAiZone`. -/
def aiReq (channel : Int) (ai_type : String) (area : GridArea) : Req :=
  ⟨"SetAlarmArea", .obj [("channel", .num channel),
    ("ai_type", .str ai_type), ("width", .num area.width),
    ("height", .num area.height), ("area", .str area.bits)], none⟩

/-- The `setAiZone`: pre-flight validation of the AI type and the bit-string
size, then a single full-overwrite `SetAlarmArea` write. -/
def setAiZone (env : Env) (channel : Int) (ai_type : String)
    (area : GridArea) : List Req × Except RError Unit :=
  if ai_type ∉ SUPPORTED_AI_TYPES then
    ([], .error (.js ("Unsupported AI type: " ++ ai_type)))
  else if (area.bits.length : Int) ≠ area.width * area.height then
    ([], .error (.js "Invalid AI zone bitstring length"))
  else
    ([aiReq channel ai_type area], (env "SetAlarmArea").map fun _ => ())

/-- C8. `setAiZone` validation is pre-flight: an AI type outside the enum,
or a bit-string whose length differs from `width*height`, yields a
validation error with zero transport requests issued. -/
theorem setAiZone_validation (env : Env) (channel : Int) (ai_type : String)
    (area : GridArea) :
    (ai_type ∉ SUPPORTED_AI_TYPES →
      setAiZone env channel ai_type area =
        ([], .error (.js ("Unsupported AI type: " ++ ai_type)))) ∧
    ((area.bits.length : Int) ≠ area.width * area.height →
      (setAiZone env channel ai_type area).1 = [] ∧
        ∃ m, (setAiZone env channel ai_type area).2 = .error (.js m)) := by
  constructor
  · intro h
    simp [setAiZone, h]
  · intro hlen
    by_cases hm : ai_type ∉ SUPPORTED_AI_TYPES
    · simp [setAiZone, hm]
    · simp [setAiZone, hm, hlen]

/-- An all-success environment used by concrete witnesses. -/
def envOk : Env := fun _ => .ok .null

/-- Witness for C8 at spec scenario 4: `setAiZone(0, "thermal", area)`
rejects with no transport call. -/
theorem setAiZone_validation_witness :
    ("thermal" ∉ SUPPORTED_AI_TYPES) ∧
      setAiZone envOk 0 "thermal" { width := 2, height := 2, bits := "0110" } =
        ([], .error (.js "Unsupported AI type: thermal")) := by
  refine ⟨by decide, ?_⟩
  exact (setAiZone_validation envOk 0 "thermal"
    { width := 2, height := 2, bits := "0110" }).1 (by decide)

/-- An observable step of an operation that mixes transport requests with
real-time waits. -/
inductive Event where
  | req (r : Req)
  | delay (ms : Int)

/-- The `PtzMoveOptions`. -/
structure PtzMoveOptions where
  speed : Option Int := none
  settleMs : Option Int := none

/-- Default settle delay (`DEFAULT_SETTLE_MS`). -/
def DEFAULT_SETTLE_MS : Int := 400

/-- Speed clamp `Math.max(1, Math.min(64, speed))`. -/
def clampSpeed (s : Int) : Int := max 1 (min 64 s)

/-- The `PtzCtrl` move payload; the (already clamped, hence truthy) speed
field is included only when a speed was supplied. -/
def gotoPayload (channel id : Int) (speed : Option Int) : Json :=
  .obj ([("channel", .num channel), ("op", .str "ToPos"),
         ("cmdStr", .str ("ToPos=" ++ toString id))] ++
    (match speed with
     | some s => [("speed", Json.num s)]
     | none => []))

/-- The `gotoPreset`: issue the move command, then await the settle delay
(default 400 ms) when it is positive. -/
def gotoPreset (env : Env) (channel id : Int) (opts : PtzMoveOptions) :
    List Event × Except RError Unit :=
  let speed := opts.speed.map clampSpeed
  let settleMs := opts.settleMs.getD DEFAULT_SETTLE_MS
  let r : Req := ⟨"PtzCtrl", gotoPayload channel id speed, none⟩
  match env "PtzCtrl" with
  | .error e => ([.req r], .error e)
  | .ok _ =>
    ([.req r] ++ (if settleMs > 0 then [.delay settleMs] else []), .ok ())

/-- C9. `gotoPreset` issues the move command first and only then awaits the
settle delay: absent `settleMs` the delay is 400 ms, a positive `settleMs`
is awaited as given, and `settleMs = 0` resolves with no delay at all; the
speed is included (clamped to [1,64]) exactly when supplied. -/
theorem gotoPreset_sequence (env : Env) (channel id : Int)
    (opts : PtzMoveOptions) (v : Json) (h : env "PtzCtrl" = .ok v) :
    (opts.settleMs = none →
      (gotoPreset env channel id opts).1 =
        [.req ⟨"PtzCtrl", gotoPayload channel id (opts.speed.map clampSpeed),
            none⟩, .delay 400]) ∧
    (∀ s, opts.settleMs = some s → 0 < s →
      (gotoPreset env channel id opts).1 =
        [.req ⟨"PtzCtrl", gotoPayload channel id (opts.speed.map clampSpeed),
            none⟩, .delay s]) ∧
    (opts.settleMs = some 0 →
      (gotoPreset env channel id opts).1 =
        [.req ⟨"PtzCtrl", gotoPayload channel id (opts.speed.map clampSpeed),
            none⟩]) ∧
    (∀ sp, opts.speed = some sp →
      (gotoPayload channel id (opts.speed.map clampSpeed)).get? "speed" =
        some (.num (max 1 (min 64 sp)))) ∧
    (opts.speed = none →
      (gotoPayload channel id (opts.speed.map clampSpeed)).get? "speed" =
        none) := by
  refine ⟨?_, ?_, ?_, ?_, ?_⟩
  · intro hs
    simp [gotoPreset, h, hs, DEFAULT_SETTLE_MS]
  · intro s hs hpos
    simp [gotoPreset, h, hs, hpos]
  · intro hs
    simp [gotoPreset, h, hs]
  · intro sp hsp
    simp [gotoPayload, hsp, clampSpeed, Json.get?, List.lookup]
  · intro hsp
    simp [gotoPayload, hsp, Json.get?, List.lookup]

/-- Witness for C9 at spec scenario 6: `gotoPreset(0, 5, {settleMs: 100})`
issues the move command and then awaits exactly 100 ms. -/
theorem gotoPreset_sequence_witness :
    envOk "PtzCtrl" = .ok .null ∧
      (gotoPreset envOk 0 5 { settleMs := some 100 }).1 =
        [.req ⟨"PtzCtrl", gotoPayload 0 5 none, none⟩, .delay 100] := by
  refine ⟨rfl, ?_⟩
  exact (gotoPreset_sequence envOk 0 5 { settleMs := some 100 } .null
    rfl).2.1 100 rfl (by norm_num)

/-- The `GuardOptions`. -/
structure GuardOptions where
  enable : Option Bool := none
  timeoutSec : Option Int := none
  setCurrentAsGuard : Option Bool := none
  goToGuardNow : Option Bool := none

/-- The `PtzGuard` write payload fields of `setGuard`. -/
def guardPayloadFields (channel : Int) (options : GuardOptions) :
    List (String × Json) :=
  [("channel", .num channel)] ++
  (match options.enable with
   | none => []
   | some b => [("benable", Json.num (if b then 1 else 0))]) ++
  (if options.setCurrentAsGuard.getD false then [("bexistPos", Json.num 1)]
   else []) ++
  [("timeout", .num (options.timeoutSec.getD 60)),
   ("cmdStr", .str (if options.goToGuardNow.getD false then "toPos"
     else "setPos")),
   ("bSaveCurrentPos", .num (if options.setCurrentAsGuard.getD false then 1
     else 0))]

/-- The `setGuard`: fail fast unless the (defaulted) timeout is 60 seconds,
then issue one `SetPtzGuard` write. -/
def setGuard (env : Env) (channel : Int) (options : GuardOptions) :
    List Req × Except RError Unit :=
  if options.timeoutSec.getD 60 ≠ 60 then
    ([], .error (.js "Reolink guard timeout currently supports only 60 seconds"))
  else
    ([⟨"SetPtzGuard", .obj [("PtzGuard", .obj (guardPayloadFields channel
        options))], none⟩],
     (env "SetPtzGuard").map fun _ => ())

/-- C10. `setGuard` with `timeoutSec` absent raises no validation error:
the timeout defaults to 60 and exactly one guard write is issued, carrying
`timeout = 60`; the call's outcome is exactly the transport's. -/
theorem setGuard_default_timeout (env : Env) (channel : Int)
    (options : GuardOptions) (h : options.timeoutSec = none) :
    (setGuard env channel options).1 =
      [⟨"SetPtzGuard", .obj [("PtzGuard",
          .obj (guardPayloadFields channel options))], none⟩] ∧
    (guardPayloadFields channel options).lookup "timeout" =
      some (.num 60) ∧
    (setGuard env channel options).2 = (env "SetPtzGuard").map fun _ => () := by
  refine ⟨?_, ?_, ?_⟩
  · simp [setGuard, h]
  · cases he : options.enable <;>
      cases hg : options.setCurrentAsGuard.getD false <;>
        simp [guardPayloadFields, h, he, hg, List.lookup]
  · simp [setGuard, h]

/-- Witness for C10: `setGuard(0, {})` (no timeout supplied) issues its
single write with timeout 60. -/
theorem setGuard_default_timeout_witness :
    (setGuard envOk 0 {}).1 =
      [⟨"SetPtzGuard", .obj [("PtzGuard",
          .obj (guardPayloadFields 0 {}))], none⟩] ∧
    (guardPayloadFields 0 {}).lookup "timeout" = some (.num 60) ∧
    (setGuard envOk 0 {}).2 = (envOk "SetPtzGuard").map fun _ => () :=
  setGuard_default_timeout envOk 0 {} rfl

/-! ## `setMdZone`: best-effort read-modify-write (C4)

JS object-literal semantics `{...base, k: v, ...}` are modelled by
`setKey`/`objMerge`: an overriding key keeps its position in the base,
a new key is appended. -/

/-- Update one key of an object's field list, JS-object style. -/
def setKey (fs : List (String × Json)) (k : String) (v : Json) :
    List (String × Json) :=
  cond (fs.any (fun p => p.1 == k))
    (fs.map (fun p => cond (p.1 == k) (k, v) p))
    (fs ++ [(k, v)])

/-- The `{...base, u₁, u₂, …}`: fold the updates over the base. -/
def objMerge (base : List (String × Json))
    (updates : List (String × Json)) : List (String × Json) :=
  updates.foldl (fun acc kv => setKey acc kv.1 kv.2) base

/-- Fields contributed by `...v` in a spread position (non-objects
contribute nothing over the values this subsystem handles). -/
def toSpread : Json → List (String × Json)
  | .obj fs => fs
  | _ => []

theorem lookup_map_setfn (k k' : String) (v : Json) (h : k ≠ k') :
    ∀ fs : List (String × Json),
      (fs.map (fun p => cond (p.1 == k') (k', v) p)).lookup k =
        fs.lookup k := by
  intro fs
  induction fs with
  | nil => rfl
  | cons p ps ih =>
    simp only [List.map_cons]
    by_cases hp : p.1 = k'
    · rw [show (p.1 == k') = true from beq_iff_eq.mpr hp]
      have hk : (k == k') = false := beq_eq_false_iff_ne.mpr h
      have hk2 : (k == p.1) = false :=
        beq_eq_false_iff_ne.mpr (fun hh => h (hp ▸ hh))
      simp [List.lookup, hk, hk2, ih]
    · rw [show (p.1 == k') = false from beq_eq_false_iff_ne.mpr hp]
      by_cases hkp : k = p.1
      · simp [List.lookup, beq_iff_eq.mpr hkp]
      · simp [List.lookup, beq_eq_false_iff_ne.mpr hkp, ih]

theorem lookup_append_single (k k' : String) (v : Json) (h : k ≠ k') :
    ∀ fs : List (String × Json),
      List.lookup k (fs ++ [(k', v)]) = List.lookup k fs := by
  intro fs
  induction fs with
  | nil => simp [List.lookup, beq_eq_false_iff_ne.mpr h]
  | cons p ps ih =>
    by_cases hkp : k = p.1
    · simp [List.lookup, beq_iff_eq.mpr hkp]
    · simp [List.lookup, beq_eq_false_iff_ne.mpr hkp, ih]

theorem lookup_setKey_other (fs : List (String × Json)) (k k' : String)
    (v : Json) (h : k ≠ k') : (setKey fs k' v).lookup k = fs.lookup k := by
  unfold setKey
  cases ha : fs.any (fun p => p.1 == k') with
  | true =>
    simp only [Bool.cond_true]
    exact lookup_map_setfn k k' v h fs
  | false =>
    simp only [Bool.cond_false]
    exact lookup_append_single k k' v h fs

theorem lookup_map_setfn_self (k : String) (v : Json) :
    ∀ fs : List (String × Json), fs.any (fun p => p.1 == k) = true →
      (fs.map (fun p => cond (p.1 == k) (k, v) p)).lookup k = some v := by
  intro fs
  induction fs with
  | nil => intro ha; simp at ha
  | cons p ps ih =>
    intro ha
    simp only [List.map_cons]
    by_cases hp : p.1 = k
    · rw [show (p.1 == k) = true from beq_iff_eq.mpr hp]
      simp [List.lookup]
    · have hbeq : (p.1 == k) = false := beq_eq_false_iff_ne.mpr hp
      rw [hbeq]
      have ha' : ps.any (fun p => p.1 == k) = true := by
        simp only [List.any_cons, hbeq, Bool.false_or] at ha
        exact ha
      have hk2 : (k == p.1) = false :=
        beq_eq_false_iff_ne.mpr (fun hh => hp hh.symm)
      simp [List.lookup, hk2, ih ha']

theorem lookup_append_self (k : String) (v : Json) :
    ∀ fs : List (String × Json), fs.any (fun p => p.1 == k) = false →
      List.lookup k (fs ++ [(k, v)]) = some v := by
  intro fs
  induction fs with
  | nil => intro _; simp [List.lookup]
  | cons p ps ih =>
    intro ha
    simp only [List.any_cons, Bool.or_eq_false_iff] at ha
    have hk2 : (k == p.1) = false := by
      refine beq_eq_false_iff_ne.mpr (fun hh => ?_)
      have := beq_eq_false_iff_ne.mp ha.1
      exact this hh.symm
    simp only [List.cons_append, List.lookup, hk2]
    exact ih (by simp [ha.2])

theorem lookup_setKey_self (fs : List (String × Json)) (k : String)
    (v : Json) : (setKey fs k v).lookup k = some v := by
  unfold setKey
  cases ha : fs.any (fun p => p.1 == k) with
  | true =>
    simp only [Bool.cond_true]
    exact lookup_map_setfn_self k v fs ha
  | false =>
    simp only [Bool.cond_false]
    exact lookup_append_self k v fs ha

theorem objMerge_three (fs : List (String × Json)) (k₁ k₂ k₃ : String)
    (v₁ v₂ v₃ : Json) :
    objMerge fs [(k₁, v₁), (k₂, v₂), (k₃, v₃)] =
      setKey (setKey (setKey fs k₁ v₁) k₂ v₂) k₃ v₃ := rfl

/-- The `setMdZone`: validate and encode the scope, attempt to fetch the
current `MdAlarm` configuration, merge into it when it is an object (else
fall back to the minimal payload), rethrowing only the transport's typed
device error; then issue the `SetMdAlarm` write. -/
def setMdZone (env : Env) (channel : Int) (area : GridArea) :
    List Req × Except RError Unit :=
  match buildScope area with
  | .error e => ([], .error (.js e))
  | .ok scopeJson =>
    let getReq : Req := ⟨"GetMdAlarm", .obj [("channel", .num channel)], none⟩
    let writeOf : Json → List Req × Except RError Unit := fun payload =>
      ([getReq, ⟨"SetMdAlarm", .obj [("MdAlarm", payload)], none⟩],
       (env "SetMdAlarm").map fun _ => ())
    let minimal : Json := .obj [("channel", .num channel),
      ("scope", scopeJson), ("table", .str area.bits)]
    match env "GetMdAlarm" with
    | .error (.http c m) => ([getReq], .error (.http c m))
    | .error (.js _) => writeOf minimal
    | .ok current =>
      match jsCoal (current.get? "MdAlarm") (some current) with
      | some (.obj fs) =>
        let scBase :=
          match jsCoal ((Json.obj fs).get? "scope") (some (.obj [])) with
          | some j => toSpread j
          | none => []
        writeOf (.obj (objMerge fs [("channel", .num channel),
          ("scope", .obj (objMerge scBase (toSpread scopeJson))),
          ("table", .str area.bits)]))
      | _ => writeOf minimal

theorem buildScope_eq_ok (area : GridArea)
    (hvalid : (area.bits.length : Int) = area.width * area.height) :
    buildScope area = .ok (scopeWire area) := by
  simp [buildScope, hvalid]

/-- C4. `setMdZone`'s error policy for the preliminary fetch: a typed
device error propagates unchanged with no write issued; any other fetch
failure is absorbed and the write proceeds with the minimal payload; a
successful fetch of an object configuration is merged into — `channel`,
`scope` and `table` are overwritten and every other sibling field is
preserved — and the write's outcome is the transport's. -/
theorem setMdZone_error_policy (env : Env) (channel : Int) (area : GridArea)
    (hvalid : (area.bits.length : Int) = area.width * area.height) :
    (∀ c m, env "GetMdAlarm" = .error (.http c m) →
      setMdZone env channel area =
        ([⟨"GetMdAlarm", .obj [("channel", .num channel)], none⟩],
         .error (.http c m))) ∧
    (∀ m, env "GetMdAlarm" = .error (.js m) →
      setMdZone env channel area =
        ([⟨"GetMdAlarm", .obj [("channel", .num channel)], none⟩,
          ⟨"SetMdAlarm", .obj [("MdAlarm", .obj [("channel", .num channel),
            ("scope", scopeWire area), ("table", .str area.bits)])], none⟩],
         (env "SetMdAlarm").map fun _ => ())) ∧
    (∀ current fs, env "GetMdAlarm" = .ok current →
      jsCoal (current.get? "MdAlarm") (some current) = some (.obj fs) →
      ∃ pf, (setMdZone env channel area).1 =
          [⟨"GetMdAlarm", .obj [("channel", .num channel)], none⟩,
           ⟨"SetMdAlarm", .obj [("MdAlarm", .obj pf)], none⟩] ∧
        (setMdZone env channel area).2 = (env "SetMdAlarm").map (fun _ => ()) ∧
        pf.lookup "channel" = some (.num channel) ∧
        pf.lookup "table" = some (.str area.bits) ∧
        (∀ k, k ≠ "channel" → k ≠ "scope" → k ≠ "table" →
          pf.lookup k = fs.lookup k)) := by
  have hb := buildScope_eq_ok area hvalid
  refine ⟨?_, ?_, ?_⟩
  · intro c m h
    simp [setMdZone, hb, h]
  · intro m h
    simp [setMdZone, hb, h]
  · intro current fs h hmd
    refine ⟨objMerge fs [("channel", .num channel),
      ("scope", .obj (objMerge
        (match jsCoal ((Json.obj fs).get? "scope") (some (.obj [])) with
         | some j => toSpread j
         | none => []) (toSpread (scopeWire area)))),
      ("table", .str area.bits)], ?_, ?_, ?_, ?_, ?_⟩
    · simp [setMdZone, hb, h, hmd]
    · simp [setMdZone, hb, h, hmd]
    · rw [objMerge_three, lookup_setKey_other _ _ _ _ (by decide),
        lookup_setKey_other _ _ _ _ (by decide), lookup_setKey_self]
    · rw [objMerge_three, lookup_setKey_self]
    · intro k hk1 hk2 hk3
      rw [objMerge_three, lookup_setKey_other _ _ _ _ hk3,
        lookup_setKey_other _ _ _ _ hk2, lookup_setKey_other _ _ _ _ hk1]

/-- An environment whose `GetMdAlarm` fails with the transport's typed
device error. -/
def envHttpMd : Env := fun c =>
  if c = "GetMdAlarm" then .error (.http 1 "device rejected") else .ok .null

/-- Witness for C4: with a device-typed fetch error, `setMdZone` issues
only the fetch and propagates the error unchanged. -/
theorem setMdZone_error_policy_witness :
    ((("0110" : String).length : Int) = 2 * 2) ∧
      setMdZone envHttpMd 0 { width := 2, height := 2, bits := "0110" } =
        ([⟨"GetMdAlarm", .obj [("channel", .num 0)], none⟩],
         .error (.http 1 "device rejected")) :=
  ⟨by decide,
    (setMdZone_error_policy envHttpMd 0
      { width := 2, height := 2, bits := "0110" }
      (by decide)).1 1 "device rejected" rfl⟩

/-! ## Capability Cache (C5)

The per-instance mutable caches (`abilityCache`, `aiSupportCache`, both JS
`Map`s) are modelled as association lists threaded through the calls; a
`Map.set` conses the new binding, which is lookup-equivalent. -/

/-- The mutable cache state of one `PresetsModule` instance. -/
structure PState where
  abilityCache : List (Int × Json)
  aiSupportCache : List (Int × List String)

/-- The fresh state of a new client instance. -/
def initState : PState := ⟨[], []⟩

/-- The one ability-descriptor request (`GetAbility`, empty payload). -/
def abilityReq : Req := ⟨"GetAbility", .obj [], none⟩

/-- The AI-configuration fallback request (`GetAiCfg`, action 1). -/
def aiCfgReq (channel : Int) : Req :=
  ⟨"GetAiCfg", .obj [("channel", .num channel)], some 1⟩

/-- The `response?.ability ?? response?.Ability ?? response`. -/
def abilityOf (response : Json) : Option Json :=
  jsCoal (response.get? "ability")
    (jsCoal (response.get? "Ability") (some response))

/-- Resolve the channel-specific sub-record of an ability descriptor:
search an `abilityChn` array for a `channel` match, or index an
`abilityChn` map by the channel number or by `chn{channel}`. -/
def resolveChannelAbility (response : Json) (channel : Int) : Option Json :=
  match abilityOf response with
  | some ab =>
    match ab.get? "abilityChn" with
    | some (.arr items) =>
      items.find? (fun item => strictEqNum (item.get? "channel") channel)
    | some (.obj chn) =>
      jsCoal ((Json.obj chn).get? (toString channel))
        ((Json.obj chn).get? ("chn" ++ toString channel))
    | _ => none
  | none => none

/-- The `getChannelAbility`: memoized per channel; one `GetAbility` request on
first access, caching the resolved sub-record (`channelAbility ?? ability
?? {}`) on success and `{}` on failure (which returns `null`). -/
def getChannelAbility (env : Env) (channel : Int) (st : PState) :
    List Req × PState × Option Json :=
  match st.abilityCache.lookup channel with
  | some v => ([], st, some v)
  | none =>
    match env "GetAbility" with
    | .error _ =>
      ([abilityReq],
       { st with abilityCache := (channel, Json.obj []) :: st.abilityCache },
       none)
    | .ok response =>
      let cached :=
        match jsCoal (resolveChannelAbility response channel)
            (jsCoal (abilityOf response) (some (.obj []))) with
        | some v => v
        | none => Json.obj []
      ([abilityReq],
       { st with abilityCache := (channel, cached) :: st.abilityCache },
       some cached)

/-- The `aiFlags[type] ?? aiFlags["support" + type] ?? aiFlags["support" +
type.toUpperCase()]`. -/
def aiFlagValue (flags : Json) (t : String) : Option Json :=
  jsCoal (flags.get? t)
    (jsCoal (flags.get? ("support" ++ t)) (flags.get? ("support" ++ t.toUpper)))

/-- Tier 1 of `getSupportedAiTypes`: the AI types flagged truthy (`1` or
`true`) in the ability record's AI-flag sub-object (accepting the
`supportAi`/`supportAI`/`ai`/`AI` aliases, falling back to the record
itself).  The source accumulates into a `Set` while looping over the enum
list, so the outcome is the enum-order filter. -/
def tier1Types (ability : Option Json) : List String :=
  match jsCoal (ability.bind (·.get? "supportAi"))
      (jsCoal (ability.bind (·.get? "supportAI"))
        (jsCoal (ability.bind (·.get? "ai"))
          (jsCoal (ability.bind (·.get? "AI")) ability))) with
  | some (.obj fs) =>
    SUPPORTED_AI_TYPES.filter (fun t =>
      strictEqNum (aiFlagValue (.obj fs) t) 1 ||
        strictEqTrue (aiFlagValue (.obj fs) t))
  | _ => []

/-- Tier 2 of `getSupportedAiTypes`: the AI types flagged truthy in the
(unwrapped) AI configuration's `ability`/`Ability` sub-object. -/
def tier2Types (cfg : Json) : List String :=
  match jsCoal (cfg.get? "ability") (jsCoal (cfg.get? "Ability") (some cfg))
      with
  | some info =>
    SUPPORTED_AI_TYPES.filter (fun t =>
      strictEqNum (info.get? t) 1 || strictEqTrue (info.get? t))
  | none => []

/-- The `getSupportedAiTypes`: memoized per channel (failures included); tier 1
from the cached ability record, tier 2 (the `GetAiCfg` fallback, unwrapped
as `cfg?.AiCfg ?? cfg`) only when tier 1 found nothing; errors at either
tier degrade silently, every exit caches its result. -/
def getSupportedAiTypes (env : Env) (channel : Int) (st : PState) :
    List Req × PState × List String :=
  match st.aiSupportCache.lookup channel with
  | some cached => ([], st, cached)
  | none =>
    match getChannelAbility env channel st with
    | (l1, st1, ability) =>
      let tier1 := tier1Types ability
      if tier1 = [] then
        match env "GetAiCfg" with
        | .error _ =>
          (l1 ++ [aiCfgReq channel],
           { st1 with aiSupportCache := (channel, []) :: st1.aiSupportCache },
           [])
        | .ok cfgRaw =>
          let cfg := match jsCoal (cfgRaw.get? "AiCfg") (some cfgRaw) with
            | some v => v
            | none => cfgRaw
          (l1 ++ [aiCfgReq channel],
           { st1 with aiSupportCache :=
              (channel, tier2Types cfg) :: st1.aiSupportCache },
           tier2Types cfg)
      else
        (l1,
         { st1 with aiSupportCache := (channel, tier1) :: st1.aiSupportCache },
         tier1)

/-- The ability value the first (uncached) `getChannelAbility` call
yields. -/
def abilityResult (env : Env) (channel : Int) : Option Json :=
  (getChannelAbility env channel initState).2.2

/-- A sequence of `n` `getSupportedAiTypes` calls for one channel,
accumulating every transport request issued. -/
def runAiCalls (env : Env) (channel : Int) : Nat → PState → List Req × PState
  | 0, st => ([], st)
  | n + 1, st =>
    match getSupportedAiTypes env channel st with
    | (l, st', _) =>
      match runAiCalls env channel n st' with
      | (ls, st'') => (l ++ ls, st'')

/-- Number of requests in a log carrying a given command. -/
def countCmd (reqs : List Req) (c : String) : Nat :=
  (reqs.filter (fun r => r.cmd == c)).length

theorem getSupportedAiTypes_cached (env : Env) (ch : Int) (st : PState)
    (v : List String) (h : st.aiSupportCache.lookup ch = some v) :
    getSupportedAiTypes env ch st = ([], st, v) := by
  simp [getSupportedAiTypes, h]

theorem runAiCalls_cached (env : Env) (ch : Int) (v : List String) :
    ∀ (m : Nat) (st : PState), st.aiSupportCache.lookup ch = some v →
      runAiCalls env ch m st = ([], st) := by
  intro m
  induction m with
  | zero => intro st _; rfl
  | succ m ih =>
    intro st h
    simp [runAiCalls, getSupportedAiTypes_cached env ch st v h, ih st h]

theorem getSupportedAiTypes_first_log (env : Env) (ch : Int) :
    (getSupportedAiTypes env ch initState).1 =
      [abilityReq] ++
        (if tier1Types (abilityResult env ch) = [] then [aiCfgReq ch]
         else []) := by
  cases h1 : env "GetAbility" <;>
    by_cases h2 : tier1Types (abilityResult env ch) = [] <;>
      cases h3 : env "GetAiCfg" <;>
        simp_all [getSupportedAiTypes, getChannelAbility, initState,
          abilityResult, h1, h3]

theorem getSupportedAiTypes_first_caches (env : Env) (ch : Int) :
    ((getSupportedAiTypes env ch initState).2.1).aiSupportCache.lookup ch =
      some ((getSupportedAiTypes env ch initState).2.2) := by
  cases h1 : env "GetAbility" <;>
    by_cases h2 : tier1Types (abilityResult env ch) = [] <;>
      cases h3 : env "GetAiCfg" <;>
        simp_all [getSupportedAiTypes, getChannelAbility, initState,
          abilityResult, h1, h3, List.lookup]

/-- C5. Over any number of `getSupportedAiTypes` calls for one channel on a
fresh instance, at most one `GetAbility` and at most one `GetAiCfg` request
are ever issued, whatever the transport outcomes (both successes and
failures are memoized); and the `GetAiCfg` fallback is issued only when the
ability-record tier yielded the empty set.  The embedded function is total
— every transport failure is absorbed — so no call throws. -/
theorem getSupportedAiTypes_memoized (env : Env) (ch : Int) (n : Nat) :
    countCmd (runAiCalls env ch n initState).1 "GetAbility" ≤ 1 ∧
    countCmd (runAiCalls env ch n initState).1 "GetAiCfg" ≤ 1 ∧
    (0 < countCmd (runAiCalls env ch n initState).1 "GetAiCfg" →
      tier1Types (abilityResult env ch) = []) := by
  cases n with
  | zero => exact ⟨by simp [runAiCalls, countCmd], by simp [runAiCalls,
      countCmd], by simp [runAiCalls, countCmd]⟩
  | succ n =>
    have hlog : (runAiCalls env ch (n + 1) initState).1 =
        (getSupportedAiTypes env ch initState).1 := by
      have hrest := runAiCalls_cached env ch
        ((getSupportedAiTypes env ch initState).2.2) n
        ((getSupportedAiTypes env ch initState).2.1)
        (getSupportedAiTypes_first_caches env ch)
      simp [runAiCalls, hrest]
    rw [hlog, getSupportedAiTypes_first_log env ch]
    by_cases h2 : tier1Types (abilityResult env ch) = [] <;>
      simp [h2, countCmd, abilityReq, aiCfgReq]

/-- Witness for C5 at a concrete environment, channel and call count. -/
theorem getSupportedAiTypes_memoized_witness :
    countCmd (runAiCalls envOk 0 3 initState).1 "GetAbility" ≤ 1 ∧
    countCmd (runAiCalls envOk 0 3 initState).1 "GetAiCfg" ≤ 1 ∧
    (0 < countCmd (runAiCalls envOk 0 3 initState).1 "GetAiCfg" →
      tier1Types (abilityResult envOk 0) = []) :=
  getSupportedAiTypes_memoized envOk 0 3

/-! ## `applyZonesForPreset` (C1) -/

/-- A transient per-preset zone bundle (`PresetZones`).  The `ai` mapping
is a JS object keyed by AI type; `Object.entries` yields its properties in
insertion order, so it is modelled as the ordered list of entries (an
explicitly-`undefined` value is representable and skipped, as in the
source's `if (!area) continue`). -/
structure PresetZones where
  md : Option GridArea := none
  ai : Option (List (String × Option GridArea)) := none
  masks : Option (List Json) := none

/-- Sequence two steps of a pipeline, accumulating issued requests and
stopping at the first error (`await` rethrow). -/
def andThen (a : List Req × Except RError Unit)
    (f : Unit → List Req × Except RError Unit) :
    List Req × Except RError Unit :=
  match a with
  | (l, .error e) => (l, .error e)
  | (l, .ok _) =>
    match f () with
    | (l', r) => (l ++ l', r)

/-- The AI-zone loop of `applyZonesForPreset`: one `setAiZone` write per
populated entry, in entry order. -/
def applyAiZones (env : Env) (channel : Int) :
    List (String × Option GridArea) → List Req × Except RError Unit
  | [] => ([], .ok ())
  | (_, none) :: rest => applyAiZones env channel rest
  | (t, some a) :: rest =>
    andThen (setAiZone env channel t a) (fun _ => applyAiZones env channel rest)

/-- The `applyZonesForPreset`: mask write (enable flag 1 iff the mask list is
non-empty) when masks are present, then motion-zone write when `md` is
present, then the AI-zone writes over the entries of `ai`. -/
def applyZonesForPreset (env : Env) (channel presetId : Int)
    (zones : PresetZones) : List Req × Except RError Unit :=
  andThen
    (match zones.masks with
     | some ms => setMasks env channel ms (if 0 < ms.length then 1 else 0)
     | none => ([], .ok ()))
    (fun _ => andThen
      (match zones.md with
       | some a => setMdZone env channel a
       | none => ([], .ok ()))
      (fun _ =>
        match zones.ai with
        | some entries => applyAiZones env channel entries
        | none => ([], .ok ())))

/-- Command names of a request log. -/
def cmdsOf (reqs : List Req) : List String := reqs.map Req.cmd

/-- The `ai_type` field carried by a request's payload. -/
def aiTypeOf (r : Req) : String :=
  match r.payload.get? "ai_type" with
  | some (.str s) => s
  | _ => ""

/-- The AI types of the `SetAlarmArea` writes of a log, in issue order. -/
def aiWriteTypes (reqs : List Req) : List String :=
  (reqs.filter (fun r => r.cmd == "SetAlarmArea")).map aiTypeOf

/-- A 2×2 grid area used by the C1 scenarios. -/
def areaQ : GridArea := { width := 2, height := 2, bits := "0110" }

/-- A zone bundle whose `ai` mapping was populated vehicle-first. -/
def zonesVP : PresetZones :=
  { ai := some [("vehicle", some areaQ), ("people", some areaQ)] }

/-- C1 counterexample: with `zones.ai` populated in the order vehicle,
people, `applyZonesForPreset` issues the AI writes as vehicle, people —
the entries' insertion order — not in the canonical enum order
`{people, vehicle, dog_cat, face}` the claim requires. -/
theorem applyZones_ai_order_counterexample :
    aiWriteTypes (applyZonesForPreset envOk 0 1 zonesVP).1 =
      ["vehicle", "people"] ∧
    SUPPORTED_AI_TYPES.filter (fun t =>
        (zonesVP.ai.getD []).any (fun p => p.1 == t && p.2.isSome)) =
      ["people", "vehicle"] ∧
    aiWriteTypes (applyZonesForPreset envOk 0 1 zonesVP).1 ≠
      SUPPORTED_AI_TYPES.filter (fun t =>
        (zonesVP.ai.getD []).any (fun p => p.1 == t && p.2.isSome)) := by
  refine ⟨rfl, rfl, ?_⟩
  intro h
  have : (["vehicle", "people"] : List String) = ["people", "vehicle"] := h
  simp at this

theorem cmdsOf_append (a b : List Req) :
    cmdsOf (a ++ b) = cmdsOf a ++ cmdsOf b := List.map_append _ a b

theorem aiWriteTypes_append (a b : List Req) :
    aiWriteTypes (a ++ b) = aiWriteTypes a ++ aiWriteTypes b := by
  simp [aiWriteTypes, List.filter_append]

theorem aiWriteTypes_eq_nil (l : List Req)
    (h : ∀ r ∈ l, r.cmd ≠ "SetAlarmArea") : aiWriteTypes l = [] := by
  have : l.filter (fun r => r.cmd == "SetAlarmArea") = [] := by
    rw [List.filter_eq_nil_iff]
    intro r hr
    simpa using h r hr
  simp [aiWriteTypes, this]

theorem setMdZone_run (env : Env) (channel : Int) (a : GridArea)
    (hvalid : (a.bits.length : Int) = a.width * a.height)
    (hget : ∃ v, env "GetMdAlarm" = .ok v)
    (hset : ∃ v, env "SetMdAlarm" = .ok v) :
    cmdsOf (setMdZone env channel a).1 = ["GetMdAlarm", "SetMdAlarm"] ∧
      (setMdZone env channel a).2 = .ok () := by
  obtain ⟨v, hv⟩ := hget
  obtain ⟨w, hw⟩ := hset
  have hb := buildScope_eq_ok a hvalid
  cases hj : jsCoal (v.get? "MdAlarm") (some v) with
  | none =>
    constructor <;> simp [setMdZone, cmdsOf, hb, hv, hw, hj, Except.map]
  | some j =>
    cases j <;> constructor <;>
      simp [setMdZone, cmdsOf, hb, hv, hw, hj, Except.map]

theorem applyAiZones_run (env : Env) (channel : Int)
    (hset : ∃ v, env "SetAlarmArea" = .ok v) :
    ∀ entries : List (String × Option GridArea),
      (∀ p ∈ entries, ∀ a, p.2 = some a → p.1 ∈ SUPPORTED_AI_TYPES ∧
        (a.bits.length : Int) = a.width * a.height) →
      (applyAiZones env channel entries).1 =
          entries.filterMap (fun p => p.2.map (fun a => aiReq channel p.1 a)) ∧
        (applyAiZones env channel entries).2 = .ok () := by
  obtain ⟨v, hv⟩ := hset
  intro entries
  induction entries with
  | nil => intro _; exact ⟨rfl, rfl⟩
  | cons p rest ih =>
    intro h
    obtain ⟨t, oa⟩ := p
    have hrest := ih (fun q hq => h q (List.mem_cons_of_mem _ hq))
    cases oa with
    | none => simpa [applyAiZones] using hrest
    | some a =>
      have hp := h (t, some a) (List.mem_cons_self _ _) a rfl
      have hmem : t ∈ SUPPORTED_AI_TYPES := hp.1
      have hlen : ¬ ((a.bits.length : Int) ≠ a.width * a.height) := by
        simpa using hp.2
      constructor <;>
        simp [applyAiZones, andThen, setAiZone, hmem, hlen, hv, hrest.1,
          hrest.2, Except.map]

theorem aiWriteTypes_of_reqs (channel : Int) :
    ∀ entries : List (String × Option GridArea),
      aiWriteTypes (entries.filterMap
          (fun p => p.2.map (fun a => aiReq channel p.1 a))) =
        entries.filterMap (fun p => p.2.map (fun _ => p.1)) := by
  intro entries
  induction entries with
  | nil => rfl
  | cons p rest ih =>
    obtain ⟨t, oa⟩ := p
    cases oa with
    | none => simpa using ih
    | some a =>
      have h1 : ((t, some a) :: rest).filterMap
          (fun p => p.2.map (fun a => aiReq channel p.1 a)) =
        aiReq channel t a :: rest.filterMap
          (fun p => p.2.map (fun a => aiReq channel p.1 a)) := rfl
      have h2 : ((t, some a) :: rest).filterMap
          (fun p => p.2.map (fun _ => p.1)) =
        t :: rest.filterMap (fun p => p.2.map (fun _ => p.1)) := rfl
      have h3 : aiWriteTypes (aiReq channel t a :: rest.filterMap
          (fun p => p.2.map (fun a => aiReq channel p.1 a))) =
        t :: aiWriteTypes (rest.filterMap
          (fun p => p.2.map (fun a => aiReq channel p.1 a))) := rfl
      rw [h1, h2, h3, ih]

theorem cmdsOf_of_reqs (channel : Int) :
    ∀ entries : List (String × Option GridArea),
      cmdsOf (entries.filterMap
          (fun p => p.2.map (fun a => aiReq channel p.1 a))) =
        entries.filterMap (fun p => p.2.map (fun _ => "SetAlarmArea")) := by
  intro entries
  induction entries with
  | nil => rfl
  | cons p rest ih =>
    obtain ⟨t, oa⟩ := p
    cases oa with
    | none => simpa using ih
    | some a =>
      have h1 : ((t, some a) :: rest).filterMap
          (fun p => p.2.map (fun a => aiReq channel p.1 a)) =
        aiReq channel t a :: rest.filterMap
          (fun p => p.2.map (fun a => aiReq channel p.1 a)) := rfl
      have h2 : ((t, some a) :: rest).filterMap
          (fun p => p.2.map (fun _ => "SetAlarmArea")) =
        "SetAlarmArea" :: rest.filterMap
          (fun p => p.2.map (fun _ => "SetAlarmArea")) := rfl
      have h3 : cmdsOf (aiReq channel t a :: rest.filterMap
          (fun p => p.2.map (fun a => aiReq channel p.1 a))) =
        "SetAlarmArea" :: cmdsOf (rest.filterMap
          (fun p => p.2.map (fun a => aiReq channel p.1 a))) := rfl
      rw [h1, h2, h3, ih]

theorem andThen_ok (a : List Req × Except RError Unit)
    (f : Unit → List Req × Except RError Unit) (h : a.2 = .ok ()) :
    andThen a f = (a.1 ++ (f ()).1, (f ()).2) := by
  obtain ⟨l, r⟩ := a
  cases r with
  | error e => exact absurd h (by simp)
  | ok u =>
    cases u
    rcases hf : f () with ⟨l', r'⟩
    simp [andThen, hf]

theorem aiWriteTypes_eq_nil_of_cmds (l : List Req) (cs : List String)
    (h : cmdsOf l = cs) (h2 : "SetAlarmArea" ∉ cs) : aiWriteTypes l = [] := by
  apply aiWriteTypes_eq_nil
  intro r hr heq
  apply h2
  rw [← h, ← heq]
  exact List.mem_map_of_mem Req.cmd hr

/-- C1 amended: `applyZonesForPreset` issues its writes in the fixed order
mask write (iff `zones.masks` is present, first in the log, with enable
flag 1 iff the mask list is non-empty), then the motion-zone write (iff
`zones.md` is present, preceded by its merge read), then one AI-zone write
per populated entry of `zones.ai` — iterated in the order in which the
`zones.ai` mapping's entries were populated (JS object insertion order,
`Object.entries`), not in the canonical enum order. -/
theorem applyZones_write_order (env : Env) (channel presetId : Int)
    (zones : PresetZones)
    (hmask : ∃ v, env "SetMask" = .ok v)
    (hget : ∃ v, env "GetMdAlarm" = .ok v)
    (hsetmd : ∃ v, env "SetMdAlarm" = .ok v)
    (hsetai : ∃ v, env "SetAlarmArea" = .ok v)
    (hmd : ∀ a, zones.md = some a →
      (a.bits.length : Int) = a.width * a.height)
    (hai : ∀ entries, zones.ai = some entries → ∀ p ∈ entries, ∀ a,
      p.2 = some a → p.1 ∈ SUPPORTED_AI_TYPES ∧
        (a.bits.length : Int) = a.width * a.height) :
    cmdsOf (applyZonesForPreset env channel presetId zones).1 =
      (if zones.masks.isSome then ["SetMask"] else []) ++
      (if zones.md.isSome then ["GetMdAlarm", "SetMdAlarm"] else []) ++
      (zones.ai.getD []).filterMap
        (fun p => p.2.map (fun _ => "SetAlarmArea")) ∧
    aiWriteTypes (applyZonesForPreset env channel presetId zones).1 =
      (zones.ai.getD []).filterMap (fun p => p.2.map (fun _ => p.1)) ∧
    (∀ ms, zones.masks = some ms →
      (applyZonesForPreset env channel presetId zones).1.head? =
        some ⟨"SetMask", .obj [("Mask", .obj [("channel", .num channel),
          ("enable", .num (if 0 < ms.length then 1 else 0)),
          ("area", .arr ms)])], none⟩) := by
  obtain ⟨v1, hv1⟩ := hmask
  -- step 3: the AI-zone loop
  have hs3 : (match zones.ai with
      | some entries => applyAiZones env channel entries
      | none => (([] : List Req), Except.ok ())) =
      ((zones.ai.getD []).filterMap
        (fun p => p.2.map (fun a => aiReq channel p.1 a)), .ok ()) := by
    cases ha : zones.ai with
    | none => rfl
    | some entries =>
      have hrun := applyAiZones_run env channel hsetai entries (hai entries ha)
      calc applyAiZones env channel entries =
          ((applyAiZones env channel entries).1,
           (applyAiZones env channel entries).2) := rfl
        _ = _ := by rw [hrun.1, hrun.2]; rfl
  -- step 2: the motion-zone write
  have hs2res : (match zones.md with
      | some a => setMdZone env channel a
      | none => (([] : List Req), Except.ok ())).2 = .ok () := by
    cases hd : zones.md with
    | none => rfl
    | some a => exact (setMdZone_run env channel a (hmd a hd) hget hsetmd).2
  have hs2cmds : cmdsOf (match zones.md with
      | some a => setMdZone env channel a
      | none => (([] : List Req), Except.ok ())).1 =
      (if zones.md.isSome then ["GetMdAlarm", "SetMdAlarm"] else []) := by
    cases hd : zones.md with
    | none => rfl
    | some a =>
      simpa using (setMdZone_run env channel a (hmd a hd) hget hsetmd).1
  have hs2ai : aiWriteTypes (match zones.md with
      | some a => setMdZone env channel a
      | none => (([] : List Req), Except.ok ())).1 = [] :=
    aiWriteTypes_eq_nil_of_cmds _ _ hs2cmds (by
      cases zones.md with
      | none => simp
      | some a =>
        simp only [Option.isSome_some, if_true]
        decide)
  -- step 1: the mask write
  have hs1res : (match zones.masks with
      | some ms => setMasks env channel ms (if 0 < ms.length then 1 else 0)
      | none => (([] : List Req), Except.ok ())).2 = .ok () := by
    cases hm : zones.masks with
    | none => rfl
    | some ms => simp [setMasks, hv1, Except.map]
  have hs1cmds : cmdsOf (match zones.masks with
      | some ms => setMasks env channel ms (if 0 < ms.length then 1 else 0)
      | none => (([] : List Req), Except.ok ())).1 =
      (if zones.masks.isSome then ["SetMask"] else []) := by
    cases hm : zones.masks with
    | none => rfl
    | some ms => rfl
  have hs1ai : aiWriteTypes (match zones.masks with
      | some ms => setMasks env channel ms (if 0 < ms.length then 1 else 0)
      | none => (([] : List Req), Except.ok ())).1 = [] := by
    cases hm : zones.masks with
    | none => rfl
    | some ms => rfl
  -- assemble the pipeline
  have hinner : andThen (match zones.md with
      | some a => setMdZone env channel a
      | none => (([] : List Req), Except.ok ()))
      (fun _ => match zones.ai with
        | some entries => applyAiZones env channel entries
        | none => (([] : List Req), Except.ok ())) =
      ((match zones.md with
        | some a => setMdZone env channel a
        | none => (([] : List Req), Except.ok ())).1 ++
       (zones.ai.getD []).filterMap
         (fun p => p.2.map (fun a => aiReq channel p.1 a)), .ok ()) := by
    rw [andThen_ok _ _ hs2res, hs3]
  have houter : applyZonesForPreset env channel presetId zones =
      ((match zones.masks with
        | some ms => setMasks env channel ms (if 0 < ms.length then 1 else 0)
        | none => (([] : List Req), Except.ok ())).1 ++
       ((match zones.md with
        | some a => setMdZone env channel a
        | none => (([] : List Req), Except.ok ())).1 ++
        (zones.ai.getD []).filterMap
          (fun p => p.2.map (fun a => aiReq channel p.1 a))), .ok ()) := by
    show andThen _ _ = _
    rw [andThen_ok _ _ hs1res, hinner]
  refine ⟨?_, ?_, ?_⟩
  · rw [houter]
    show cmdsOf (_ ++ (_ ++ _)) = _
    rw [cmdsOf_append, cmdsOf_append, hs1cmds, hs2cmds,
      cmdsOf_of_reqs channel (zones.ai.getD []), List.append_assoc]
  · rw [houter]
    show aiWriteTypes (_ ++ (_ ++ _)) = _
    rw [aiWriteTypes_append, aiWriteTypes_append, hs1ai, hs2ai,
      aiWriteTypes_of_reqs channel (zones.ai.getD [])]
    simp
  · intro ms hm
    rw [houter]
    show ((match zones.masks with
      | some ms => setMasks env channel ms (if 0 < ms.length then 1 else 0)
      | none => (([] : List Req), Except.ok ())).1 ++ _).head? = _
    rw [hm]
    rfl

/-- A zone bundle exercising all three steps of the pipeline. -/
def zonesAll : PresetZones :=
  { md := some areaQ, ai := some [("people", some areaQ)],
    masks := some [] }

/-- Witness for the amended C1 theorem: with masks, md and one AI entry
present, the writes are mask, motion (read + write), then the AI write. -/
theorem applyZones_write_order_witness :
    cmdsOf (applyZonesForPreset envOk 0 1 zonesAll).1 =
      ["SetMask", "GetMdAlarm", "SetMdAlarm", "SetAlarmArea"] ∧
    aiWriteTypes (applyZonesForPreset envOk 0 1 zonesAll).1 = ["people"] := by
  have h := applyZones_write_order envOk 0 1 zonesAll
    ⟨.null, rfl⟩ ⟨.null, rfl⟩ ⟨.null, rfl⟩ ⟨.null, rfl⟩
    (fun a ha => by
      injection ha with ha'
      rw [← ha']
      decide)
    (fun entries he p hp a hpa => by
      injection he with he'
      rw [← he'] at hp
      have hp' : p = ("people", some areaQ) := by simpa using hp
      rw [hp'] at hpa ⊢
      injection hpa with ha'
      rw [← ha']
      exact ⟨by decide, by decide⟩)
  exact ⟨h.1.trans rfl, h.2.1.trans rfl⟩

end Reolink
